import Mathlib

/-!
Shallow embedding of the string_analyzer repository.

The embedding follows the JavaScript source:
* `src/unnamed/part_001` (the string analyser utility): `isPalindrome`,
  `countCharacterFrequency`, `analyseString`.  The SHA-256 digest is a call
  into the Node `crypto` library, so it is abstracted as a `hash` parameter;
  every theorem below holds for an arbitrary digest function.
* `src/string_analyser_api/data/store.js`: `addString`, `getStringByValue`,
  `deleteStringByValue`, `getCount`.  The JS `Map` (insertion ordered,
  distinct keys) is modelled as an association list; the impure
  `new Date().toISOString()` is passed in as the `now` argument.
* `src/string_analyser_api/routes/strings.js`: `parseNaturalLanguageQuery`
  (the regexes are compiled by hand into explicit backtracking matchers with
  JS leftmost-match semantics) and the filter chain shared by the two GET
  routes (`applyFilters`), plus the natural-language route handler.

Strings are treated as their lists of characters (code points); all inputs
appearing in the claims are ASCII, where JS UTF-16 code units, code points
and Lean `Char`s agree.
-/

/-- The character class of the JS regex `\s` (also used by `trim` and
`toLowerCase`-insensitive whitespace stripping in the analyser). -/
def isJsWs (c : Char) : Bool :=
  c.toNat == 32 || c.toNat == 9 || c.toNat == 10 || c.toNat == 11 ||
  c.toNat == 12 || c.toNat == 13 || c.toNat == 0xa0 || c.toNat == 0x1680 ||
  (0x2000 ≤ c.toNat && c.toNat ≤ 0x200a) || c.toNat == 0x2028 ||
  c.toNat == 0x2029 || c.toNat == 0x202f || c.toNat == 0x205f ||
  c.toNat == 0x3000 || c.toNat == 0xfeff

/-- `isPalindrome` from the analyser: lower-case, delete every whitespace
character, compare with the reversal. -/
def isPalindrome (str : String) : Bool :=
  let word := (str.toList.map Char.toLower).filter (fun c => !isJsWs c)
  word.reverse == word

/-- One step of `new Set(str)`: JS `Set` keeps first insertions, in order. -/
def setInsert (s : List Char) (c : Char) : List Char :=
  if c ∈ s then s else s ++ [c]

/-- `new Set(str).size` — the number of distinct characters of `str`. -/
def setSize (str : String) : Nat :=
  (str.toList.foldl setInsert []).length

/-- One step of `countCharacterFrequency`: `frequency[char]++` when the key
exists, `frequency[char] = 1` otherwise (JS objects keep insertion order). -/
def bump : List (Char × Nat) → Char → List (Char × Nat)
  | [], c => [(c, 1)]
  | (k, n) :: rest, c =>
    if k = c then (k, n + 1) :: rest else (k, n) :: bump rest c

/-- `countCharacterFrequency` from the analyser. -/
def countCharacterFrequency (str : String) : List (Char × Nat) :=
  str.toList.foldl bump []

/-- JS `String.prototype.trim`: drop leading and trailing whitespace. -/
def jsTrim (l : List Char) : List Char :=
  ((l.dropWhile isJsWs).reverse.dropWhile isJsWs).reverse

mutual

/-- `split(/\s+/)`, accumulating the current token (reversed) in `acc`. -/
def splitWsAux : List Char → List Char → List (List Char)
  | [], acc => [acc.reverse]
  | c :: cs, acc =>
    if isJsWs c then acc.reverse :: splitSkip cs else splitWsAux cs (c :: acc)

/-- After a separator match of `/\s+/`, skip the rest of the whitespace run. -/
def splitSkip : List Char → List (List Char)
  | [] => [[]]
  | c :: cs => if isJsWs c then splitSkip cs else splitWsAux cs [c]

end

/-- `str.trim().split(/\s+/).length` from `analyseString`. -/
def wordCount (str : String) : Nat :=
  (splitWsAux (jsTrim str.toList) []).length

/-- The `properties` object produced by `analyseString`. -/
structure Properties where
  length : Nat
  is_palindrome : Bool
  unique_characters : Nat
  word_count : Nat
  sha256_hash : String
  character_frequency : List (Char × Nat)
deriving Repr, DecidableEq

/-- `analyseString`, with the `crypto` SHA-256 digest abstracted as `hash`. -/
def analyseString (hash : String → String) (str : String) : Properties :=
  { length := str.length
    is_palindrome := isPalindrome str
    unique_characters := setSize str
    word_count := wordCount str
    sha256_hash := hash str
    character_frequency := countCharacterFrequency str }

/-- One record of the store (`stringData` in `store.js`); `created_at` is the
impure timestamp, passed in by the caller. -/
structure StringData where
  id : String
  value : String
  properties : Properties
  created_at : String
deriving Repr, DecidableEq

/-- The JS `Map` backing the store, as an insertion-ordered association
list keyed by the record id. -/
abbrev Store := List (String × StringData)

/-- `stringStore.has(id)`. -/
def hasId (store : Store) (id : String) : Bool :=
  store.any (fun e => e.1 == id)

/-- The error object thrown by `addString` (message plus `statusCode`). -/
structure StoreError where
  message : String
  statusCode : Nat
deriving Repr, DecidableEq

/-- The duplicate error thrown by `addString`, with status code 409. -/
def duplicateError : StoreError :=
  { message := "Error: This string already exist", statusCode := 409 }

/-- `addString` from `store.js`: throwing is modelled by returning the error
together with the untouched store. -/
def addString (store : Store) (value : String) (properties : Properties)
    (now : String) : Except StoreError StringData × Store :=
  let id := properties.sha256_hash
  if hasId store id then (.error duplicateError, store)
  else
    let stringData : StringData := { id, value, properties, created_at := now }
    (.ok stringData, store ++ [(id, stringData)])

/-- `getStringByValue`: linear scan over the entries, first match wins. -/
def getStringByValue (store : Store) (value : String) : Option StringData :=
  match store.find? (fun e => e.2.value == value) with
  | some e => some e.2
  | none => none

/-- `deleteStringByValue`: scan for a matching value, remove that entry by
its key (`stringStore.delete(id)` returns `true` for an existing key). -/
def deleteStringByValue (store : Store) (value : String) : Bool × Store :=
  match store.find? (fun e => e.2.value == value) with
  | some e => (true, store.eraseP (fun x => x.1 == e.1))
  | none => (false, store)

/-- `getCount` from `store.js`. -/
def getCount (store : Store) : Nat := store.length

/-! ### The natural-language translator

Each JS regex of `parseNaturalLanguageQuery` is compiled into an explicit
matcher: a per-position test, scanned left to right (JS leftmost-match),
with the backtracking the particular pattern needs.  `\s+` is always
followed by a non-whitespace literal or character class in these patterns,
so the greedy maximal-munch run is the only candidate and needs no
backtracking; the optional groups `(?:ing|s)?` and `(?:the\s+)?` do
backtrack and are compiled with explicit alternatives. -/

/-- Match a literal: `dropLit pat s` strips `pat` from the front of `s`. -/
def dropLit : List Char → List Char → Option (List Char)
  | [], s => some s
  | _ :: _, [] => none
  | p :: ps, c :: cs => if p = c then dropLit ps cs else none

/-- Greedy `\d+`-style run: the longest digit run and the remainder. -/
def takeDigits : List Char → List Char × List Char
  | [] => ([], [])
  | c :: cs =>
    if c.isDigit then
      let r := takeDigits cs
      (c :: r.1, r.2)
    else ([], c :: cs)

/-- `parseInt` on a digit run (accumulator form). -/
def digitsToNat (acc : Nat) : List Char → Nat
  | [] => acc
  | c :: cs => digitsToNat (acc * 10 + (c.toNat - 48)) cs

/-- `\s+` (maximal munch): requires at least one whitespace character. -/
def takeWs : List Char → Option (List Char)
  | [] => none
  | c :: cs => if isJsWs c then some (cs.dropWhile isJsWs) else none

/-- Generic leftmost scan: try the per-position matcher `m` at every start
position, including the end-of-string position, and keep the first hit. -/
def scanFor {α : Type} (m : List Char → Option α) : List Char → Option α
  | [] => m []
  | c :: rest =>
    match m (c :: rest) with
    | some a => some a
    | none => scanFor m rest

/-- Per-position matcher for `lit(\d+)` (e.g. `longer than (\d+)`). -/
def matchNumAfter (lit : List Char) (s : List Char) : Option Nat :=
  match dropLit lit s with
  | some r =>
    let p := takeDigits r
    if p.1.isEmpty then none else some (digitsToNat 0 p.1)
  | none => none

/-- Per-position matcher for `lit(\d+)post` (e.g. `more than (\d+) character`). -/
def matchNumThen (lit post : List Char) (s : List Char) : Option Nat :=
  match dropLit lit s with
  | some r =>
    let p := takeDigits r
    if p.1.isEmpty then none
    else
      match dropLit post p.2 with
      | some _ => some (digitsToNat 0 p.1)
      | none => none
  | none => none

/-- The character class `[a-z]`. -/
def isLowerAlpha (c : Char) : Bool := 'a' ≤ c && c ≤ 'z'

/-- `letter\s+([a-z])`. -/
def matchLetterAfter (t : List Char) : Option Char :=
  match dropLit "letter".toList t with
  | some t1 =>
    match takeWs t1 with
    | some (c :: _) => if isLowerAlpha c then some c else none
    | some [] => none
    | none => none
  | none => none

/-- `(?:the\s+)?letter\s+([a-z])`, with backtracking out of the optional
`the\s+` group when the continuation fails. -/
def matchTheLetter (s1 : List Char) : Option Char :=
  match dropLit "the".toList s1 with
  | some s2 =>
    match takeWs s2 with
    | some s3 =>
      match matchLetterAfter s3 with
      | some c => some c
      | none => matchLetterAfter s1
    | none => matchLetterAfter s1
  | none => matchLetterAfter s1

/-- `\s+(?:the\s+)?letter\s+([a-z])`. -/
def matchWsTheLetter (s : List Char) : Option Char :=
  match takeWs s with
  | some s1 => matchTheLetter s1
  | none => none

/-- Second and third alternatives of `(?:ing|s)?` after `contain`: try `s`,
then the empty option, each followed by the continuation `k`. -/
def containTailS (r : List Char) (k : List Char → Option Char) : Option Char :=
  match dropLit "s".toList r with
  | some r2 =>
    match k r2 with
    | some c => some c
    | none => k r
  | none => k r

/-- `(?:ing|s)?` after `contain`: try `ing`, then `s`, then nothing. -/
def containTail (r : List Char) (k : List Char → Option Char) : Option Char :=
  match dropLit "ing".toList r with
  | some r2 =>
    match k r2 with
    | some c => some c
    | none => containTailS r k
  | none => containTailS r k

/-- `contain(?:ing|s)?` followed by the continuation `k`. -/
def matchContainAt (s : List Char) (k : List Char → Option Char) : Option Char :=
  match dropLit "contain".toList s with
  | some r => containTail r k
  | none => none

/-- Per-position matcher for the rule-7 regex
`contain(?:ing|s)?\s+(?:the\s+)?letter\s+([a-z])|with\s+(?:the\s+)?letter\s+([a-z])`. -/
def letterAlt (s : List Char) : Option Char :=
  match matchContainAt s matchWsTheLetter with
  | some c => some c
  | none =>
    match dropLit "with".toList s with
    | some r => matchWsTheLetter r
    | none => none

/-- The rule-7 match (`letterMatch[1] || letterMatch[2]`). -/
def findLetterMatch (q : List Char) : Option Char := scanFor letterAlt q

/-- `\s+([a-z])$`: whitespace, a single letter, end of input. -/
def wsLetterEnd (s : List Char) : Option Char :=
  match takeWs s with
  | some [c] => if isLowerAlpha c then some c else none
  | some _ => none
  | none => none

/-- Per-position matcher for the rule-8 regex `contain(?:ing|s)?\s+([a-z])$`. -/
def containsEndM (s : List Char) : Option Char := matchContainAt s wsLetterEnd

/-- The rule-8 match. -/
def findContainsEnd (q : List Char) : Option Char := scanFor containsEndM q

/-- Per-position matcher for `longer than (\d+)|more than (\d+) character`. -/
def longerAlt (s : List Char) : Option Nat :=
  match matchNumAfter "longer than ".toList s with
  | some n => some n
  | none => matchNumThen "more than ".toList " character".toList s

/-- The rule-4 match. -/
def findLongerThan (q : List Char) : Option Nat := scanFor longerAlt q

/-- Per-position matcher for `shorter than (\d+)|less than (\d+) character`. -/
def shorterAlt (s : List Char) : Option Nat :=
  match matchNumAfter "shorter than ".toList s with
  | some n => some n
  | none => matchNumThen "less than ".toList " character".toList s

/-- The rule-5 match. -/
def findShorterThan (q : List Char) : Option Nat := scanFor shorterAlt q

/-- Per-position matcher for `at least (\d+) character`. -/
def atLeastM (s : List Char) : Option Nat :=
  matchNumThen "at least ".toList " character".toList s

/-- The rule-6 match. -/
def findAtLeast (q : List Char) : Option Nat := scanFor atLeastM q

/-- Substring test `lowerQuery.includes(pat)`: does `pat` start at some
position of `s`? -/
def startsWithSeq : List Char → List Char → Bool
  | [], _ => true
  | _ :: _, [] => false
  | p :: ps, c :: cs => if p = c then startsWithSeq ps cs else false

/-- `s` contains `pat` as a contiguous subsequence. -/
def containsSeq (pat : List Char) : List Char → Bool
  | [] => pat.isEmpty
  | c :: rest => startsWithSeq pat (c :: rest) || containsSeq pat rest

/-- The parsed filter object; absent keys are `none`.  Lengths are JS
numbers, which can go negative (`shorter than 0` parses to `-1`), hence
`Int`. -/
structure Filters where
  is_palindrome : Option Bool := none
  word_count : Option Nat := none
  min_length : Option Int := none
  max_length : Option Int := none
  contains_character : Option Char := none
deriving Repr, DecidableEq

/-- The rule-9 table: ordinal vowel words, applied in order by `forEach`
(later matches overwrite earlier ones). -/
def vowelRules : List (List Char × Char) :=
  [("first vowel".toList, 'a'), ("second vowel".toList, 'e'),
   ("third vowel".toList, 'i'), ("fourth vowel".toList, 'o'),
   ("fifth vowel".toList, 'u')]

/-- Rule 9 of `parseNaturalLanguageQuery`. -/
def applyVowels (q : List Char) (f : Filters) : Filters :=
  vowelRules.foldl
    (fun acc r =>
      if containsSeq r.1 q then { acc with contains_character := some r.2 }
      else acc) f

/-- Rule 1: substring `palindrom` sets `is_palindrome = true`. -/
def rulePalindrome (lq : List Char) (f : Filters) : Filters :=
  if containsSeq "palindrom".toList lq then { f with is_palindrome := some true }
  else f

/-- Rule 2: `single word` / `one word` set `word_count = 1`. -/
def ruleSingleWord (lq : List Char) (f : Filters) : Filters :=
  if containsSeq "single word".toList lq || containsSeq "one word".toList lq
  then { f with word_count := some 1 } else f

/-- Rule 3: `two word` / `double word` set `word_count = 2`. -/
def ruleTwoWord (lq : List Char) (f : Filters) : Filters :=
  if containsSeq "two word".toList lq || containsSeq "double word".toList lq
  then { f with word_count := some 2 } else f

/-- Rule 4: `longer than N` / `more than N character` set
`min_length = N + 1`. -/
def ruleLongerThan (lq : List Char) (f : Filters) : Filters :=
  match findLongerThan lq with
  | some n => { f with min_length := some ((n : Int) + 1) }
  | none => f

/-- Rule 5: `shorter than N` / `less than N character` set
`max_length = N - 1`. -/
def ruleShorterThan (lq : List Char) (f : Filters) : Filters :=
  match findShorterThan lq with
  | some n => { f with max_length := some ((n : Int) - 1) }
  | none => f

/-- Rule 6: `at least N character` sets `min_length = N`. -/
def ruleAtLeast (lq : List Char) (f : Filters) : Filters :=
  match findAtLeast lq with
  | some n => { f with min_length := some ((n : Int)) }
  | none => f

/-- Rule 7: `contain(ing/s)/with [the] letter X` sets
`contains_character = X`. -/
def ruleLetter (lq : List Char) (f : Filters) : Filters :=
  match findLetterMatch lq with
  | some c => { f with contains_character := some c }
  | none => f

/-- Rule 8: a trailing `contain(ing/s) X` sets `contains_character = X`. -/
def ruleContainsEnd (lq : List Char) (f : Filters) : Filters :=
  match findContainsEnd lq with
  | some c => { f with contains_character := some c }
  | none => f

/-- The nine rules of `parseNaturalLanguageQuery` in source order, each
checked against the lower-cased query `lq`, each mutating the filter
object produced by the rules before it. -/
def parseRules (lq : List Char) : Filters :=
  applyVowels lq
    (ruleContainsEnd lq
      (ruleLetter lq
        (ruleAtLeast lq
          (ruleShorterThan lq
            (ruleLongerThan lq
              (ruleTwoWord lq
                (ruleSingleWord lq
                  (rulePalindrome lq {}))))))))

/-- `parseNaturalLanguageQuery` from `routes/strings.js`: lower-case the
query once, then run the nine rules. -/
def parseNaturalLanguageQuery (query : String) : Filters :=
  parseRules (query.toList.map Char.toLower)

/-- The filter chain shared by `GET /strings` and the natural-language
route: each present key filters the list in turn, in source order. -/
def applyFilters (pf : Filters) (records : List StringData) : List StringData :=
  let s1 := match pf.is_palindrome with
    | some b => records.filter (fun r => r.properties.is_palindrome == b)
    | none => records
  let s2 := match pf.min_length with
    | some n => s1.filter (fun r => decide ((r.properties.length : Int) ≥ n))
    | none => s1
  let s3 := match pf.max_length with
    | some n => s2.filter (fun r => decide ((r.properties.length : Int) ≤ n))
    | none => s2
  let s4 := match pf.word_count with
    | some n => s3.filter (fun r => r.properties.word_count == n)
    | none => s3
  match pf.contains_character with
  | some c => s4.filter (fun r => containsSeq [c] r.value.toList)
  | none => s4

/-- `Object.keys(parsedFilters).length`: keys are only ever assigned, never
deleted, so this is the number of `some` fields. -/
def keysCount (f : Filters) : Nat :=
  (if f.is_palindrome.isSome then 1 else 0) +
  (if f.word_count.isSome then 1 else 0) +
  (if f.min_length.isSome then 1 else 0) +
  (if f.max_length.isSome then 1 else 0) +
  (if f.contains_character.isSome then 1 else 0)

/-- Outcomes of `GET /strings/filter-by-natural-language`. -/
inductive NlResponse where
  | badRequestMissingQuery : NlResponse
  | badRequestUnparseable : NlResponse
  | ok : List StringData → Filters → NlResponse
deriving Repr, DecidableEq

/-- The natural-language route handler: `!query` is JS-falsy (absent or
empty), an empty parsed filter set is the unparseable-query failure, and
otherwise the parsed filters are applied to the records. -/
def filterByNaturalLanguage (records : List StringData) (query : Option String) :
    NlResponse :=
  match query with
  | none => .badRequestMissingQuery
  | some q =>
    if q.isEmpty then .badRequestMissingQuery
    else
      let parsed := parseNaturalLanguageQuery q
      if keysCount parsed = 0 then .badRequestUnparseable
      else .ok (applyFilters parsed records) parsed

/-- Modelled from the spec (§4.4): a record "satisfies every filter present
in `filters`" — the specification-side conjunction that `applyFilters` is
compared against. -/
def satisfiesEveryFilter (pf : Filters) (r : StringData) : Bool :=
  (match pf.is_palindrome with
   | some b => r.properties.is_palindrome == b
   | none => true) &&
  (match pf.min_length with
   | some n => decide ((r.properties.length : Int) ≥ n)
   | none => true) &&
  (match pf.max_length with
   | some n => decide ((r.properties.length : Int) ≤ n)
   | none => true) &&
  (match pf.word_count with
   | some n => r.properties.word_count == n
   | none => true) &&
  (match pf.contains_character with
   | some c => containsSeq [c] r.value.toList
   | none => true)

/-- A stored record for the concrete test-data sets, using the identity
function as a stand-in digest. -/
def sampleRecord (v : String) : StringData :=
  { id := v, value := v, properties := analyseString (fun s => s) v,
    created_at := "t" }

/-- Records of lengths 3, 5, 7 and 10, as in the filter-composition test. -/
def sampleRecords : List StringData :=
  [sampleRecord "abc", sampleRecord "abcde", sampleRecord "abcdefg",
   sampleRecord "abcdefghij"]

/-! ### Helper lemmas -/

/-- Lower-casing fixes whitespace characters. -/
theorem toLower_of_isJsWs {c : Char} (h : isJsWs c = true) :
    Char.toLower c = c := by
  have hn : ¬(c.toNat ≥ 65 ∧ c.toNat ≤ 90) := by
    simp [isJsWs] at h
    omega
  simp [Char.toLower, hn]

/-- Lower-casing fixes digits. -/
theorem toLower_of_isDigit {c : Char} (h : c.isDigit = true) :
    Char.toLower c = c := by
  have hv : c.val ≤ 57 := by
    simp [Char.isDigit] at h
    exact h.2
  have hn : ¬(c.toNat ≥ 65 ∧ c.toNat ≤ 90) := by
    have : c.toNat ≤ 57 := hv
    omega
  simp [Char.toLower, hn]

/-- Trimming an all-whitespace list yields the empty list. -/
theorem jsTrim_of_all_ws {l : List Char} (h : ∀ c ∈ l, isJsWs c = true) :
    jsTrim l = [] := by
  unfold jsTrim
  rw [List.dropWhile_eq_nil_iff.mpr h]
  rfl

/-! ### C1: the palindrome examples -/

/-- C1 counterexample: the claim asserts
`Analyzer.compute("race a car").is_palindrome == true`, but the analyser
lower-cases and strips whitespace only, and `"raceacar"` is not equal to
its own reversal, so the code returns `false`. -/
theorem claim1_counterexample :
    (analyseString (fun _ => "") "race a car").is_palindrome = false := by
  rfl

/-- C1 (amended): whatever the digest function, the analyser reports
`"race a car"` as not palindromic (whitespace is removed but
`"raceacar"` still differs from its reversal), `"racecar"` as palindromic
and `"hello"` as not palindromic. -/
theorem claim1_palindrome_examples (hash : String → String) :
    (analyseString hash "race a car").is_palindrome = false ∧
    (analyseString hash "racecar").is_palindrome = true ∧
    (analyseString hash "hello").is_palindrome = false := by
  refine ⟨rfl, rfl, rfl⟩

/-! ### C4: the word-count boundary -/

/-- C4: for every empty or all-whitespace value the trim-then-split
boundary produces a single empty token, so `word_count` is `1`; and
`"hello world"` has `word_count` 2. -/
theorem claim4_word_count (hash : String → String) :
    (∀ v : String, (∀ c ∈ v.toList, isJsWs c = true) →
      (analyseString hash v).word_count = 1) ∧
    (analyseString hash "hello world").word_count = 2 := by
  constructor
  · intro v h
    show wordCount v = 1
    unfold wordCount
    rw [jsTrim_of_all_ws h]
    rfl
  · rfl

/-- C4 witness: the all-whitespace value `"   "` has `word_count` 1. -/
theorem claim4_witness :
    (analyseString (fun _ => "") "   ").word_count = 1 :=
  (claim4_word_count (fun _ => "")).1 "   " (by decide)

/-! ### C9: all-whitespace strings are palindromic -/

/-- C9: a non-empty string of whitespace characters normalises to the
empty string inside `isPalindrome`, which equals its own reversal, so the
analyser reports it palindromic. -/
theorem claim9_ws_palindrome (hash : String → String) (v : String)
    (hne : v.toList ≠ []) (h : ∀ c ∈ v.toList, isJsWs c = true) :
    (analyseString hash v).is_palindrome = true := by
  show isPalindrome v = true
  unfold isPalindrome
  have hword :
      (v.toList.map Char.toLower).filter (fun c => !isJsWs c) = [] := by
    refine List.filter_eq_nil_iff.mpr ?_
    intro a ha
    rcases List.mem_map.mp ha with ⟨c, hc, rfl⟩
    rw [toLower_of_isJsWs (h c hc), h c hc]
    simp
  rw [hword]
  rfl

/-- C9 witness: a single space is reported palindromic. -/
theorem claim9_witness :
    (analyseString (fun _ => "") " ").is_palindrome = true :=
  claim9_ws_palindrome (fun _ => "") " " (by decide) (by decide)

/-! ### C10: frequency-histogram invariants -/

/-- Bumping a key transforms the key list like a JS `Set` insertion. -/
theorem bump_map_fst (a : List (Char × Nat)) (c : Char) :
    (bump a c).map Prod.fst = setInsert (a.map Prod.fst) c := by
  induction a with
  | nil => simp [bump, setInsert]
  | cons e rest ih =>
    obtain ⟨k, n⟩ := e
    by_cases hk : k = c
    · subst hk
      simp [bump, setInsert]
    · have hmem : (c ∈ k :: rest.map Prod.fst) ↔ (c ∈ rest.map Prod.fst) := by
        simp [Ne.symm hk]
      simp only [bump, if_neg hk, List.map_cons, ih, setInsert]
      by_cases hc : c ∈ rest.map Prod.fst
      · simp [hc, hmem.mpr hc]
      · have : ¬(c ∈ k :: rest.map Prod.fst) := fun h => hc (hmem.mp h)
        simp [hc, this]

/-- The key list of the whole fold matches the `Set` fold. -/
theorem foldl_bump_map_fst (l : List Char) (a : List (Char × Nat)) :
    (l.foldl bump a).map Prod.fst = l.foldl setInsert (a.map Prod.fst) := by
  induction l generalizing a with
  | nil => rfl
  | cons c cs ih => simp only [List.foldl_cons, ih, bump_map_fst]

/-- Bumping preserves positivity of all counts. -/
theorem bump_counts_pos {a : List (Char × Nat)} (c : Char)
    (h : ∀ p ∈ a, 1 ≤ p.2) : ∀ p ∈ bump a c, 1 ≤ p.2 := by
  induction a with
  | nil =>
    intro p hp
    simp [bump] at hp
    simp [hp]
  | cons e rest ih =>
    obtain ⟨k, n⟩ := e
    intro p hp
    by_cases hk : k = c
    · subst hk
      simp [bump] at hp
      rcases hp with hp | hp
      · simp [hp]
      · exact h p (List.mem_cons_of_mem _ hp)
    · simp [bump, if_neg hk] at hp
      rcases hp with hp | hp
      · exact h p (by simp [hp])
      · exact ih (fun q hq => h q (List.mem_cons_of_mem _ hq)) p hp

/-- Every count of the fold is at least 1. -/
theorem foldl_bump_counts_pos (l : List Char) (a : List (Char × Nat))
    (h : ∀ p ∈ a, 1 ≤ p.2) : ∀ p ∈ l.foldl bump a, 1 ≤ p.2 := by
  induction l generalizing a with
  | nil => exact h
  | cons c cs ih => exact ih (bump a c) (bump_counts_pos c h)

/-- Bumping adds exactly one to the total count. -/
theorem bump_sum (a : List (Char × Nat)) (c : Char) :
    ((bump a c).map Prod.snd).sum = ((a.map Prod.snd).sum) + 1 := by
  induction a with
  | nil => simp [bump]
  | cons e rest ih =>
    obtain ⟨k, n⟩ := e
    by_cases hk : k = c
    · subst hk
      simp [bump]
      omega
    · simp [bump, if_neg hk, ih]
      omega

/-- The total of the fold is the length of the input. -/
theorem foldl_bump_sum (l : List Char) (a : List (Char × Nat)) :
    ((l.foldl bump a).map Prod.snd).sum = (a.map Prod.snd).sum + l.length := by
  induction l generalizing a with
  | nil => simp
  | cons c cs ih =>
    simp only [List.foldl_cons, ih, bump_sum, List.length_cons]
    omega

/-- `Set` insertion preserves distinctness of the key list. -/
theorem setInsert_nodup {s : List Char} (c : Char) (h : s.Nodup) :
    (setInsert s c).Nodup := by
  unfold setInsert
  by_cases hc : c ∈ s
  · simpa [hc] using h
  · simp only [if_neg hc]
    simp [List.nodup_append, h, hc]

/-- The `Set` fold keeps its accumulator distinct. -/
theorem foldl_setInsert_nodup (l : List Char) (s : List Char) (h : s.Nodup) :
    (l.foldl setInsert s).Nodup := by
  induction l generalizing s with
  | nil => exact h
  | cons c cs ih => exact ih (setInsert s c) (setInsert_nodup c h)

/-- C10: for every string, `unique_characters` (the `Set` size) equals the
number of keys of `character_frequency`, those keys are distinct (so the
length is the number of distinct keys), every tallied count is at least 1,
and the counts sum to the number of characters of the string. -/
theorem claim10_frequency_invariants (hash : String → String) (str : String) :
    (analyseString hash str).unique_characters =
      (analyseString hash str).character_frequency.length ∧
    ((analyseString hash str).character_frequency.map Prod.fst).Nodup ∧
    (∀ p ∈ (analyseString hash str).character_frequency, 1 ≤ p.2) ∧
    ((analyseString hash str).character_frequency.map Prod.snd).sum =
      str.toList.length := by
  refine ⟨?_, ?_, ?_, ?_⟩
  · show setSize str = (countCharacterFrequency str).length
    unfold setSize countCharacterFrequency
    have := foldl_bump_map_fst str.toList []
    calc (str.toList.foldl setInsert []).length
        = ((str.toList.foldl bump []).map Prod.fst).length := by
          rw [this]; rfl
      _ = (str.toList.foldl bump []).length := by
          rw [List.length_map]
  · show ((countCharacterFrequency str).map Prod.fst).Nodup
    unfold countCharacterFrequency
    rw [foldl_bump_map_fst]
    exact foldl_setInsert_nodup _ _ List.nodup_nil
  · show ∀ p ∈ countCharacterFrequency str, 1 ≤ p.2
    exact foldl_bump_counts_pos _ _ (by simp)
  · show ((countCharacterFrequency str).map Prod.snd).sum = str.toList.length
    unfold countCharacterFrequency
    rw [foldl_bump_sum]
    simp

/-- C10 witness: the invariants evaluated on `"aabb"`. -/
theorem claim10_witness :
    (analyseString (fun _ => "") "aabb").unique_characters =
      (analyseString (fun _ => "") "aabb").character_frequency.length :=
  (claim10_frequency_invariants (fun _ => "") "aabb").1

/-! ### C3 and C8: store behaviour -/

/-- The `stringData` record that `addString` constructs when inserting the
value `v` analysed with digest `hash`, timestamped `now`. -/
def insertedRecord (hash : String → String) (v now : String) : StringData :=
  { id := hash v
    value := v
    properties := analyseString hash v
    created_at := now }

/-- `eraseP` passes over a block in which nothing matches. -/
theorem eraseP_append_of_none {p : String × StringData → Bool}
    {l1 : List (String × StringData)} (l2 : List (String × StringData))
    (h : ∀ e ∈ l1, p e = false) :
    (l1 ++ l2).eraseP p = l1 ++ l2.eraseP p := by
  induction l1 with
  | nil => rfl
  | cons e rest ih =>
    have he : p e = false := h e (by simp)
    simp only [List.cons_append, List.eraseP_cons, he, cond_false]
    rw [ih (fun x hx => h x (List.mem_cons_of_mem _ hx))]

/-- C3: starting from a store that does not contain the hash of `v`, the
first `addString` inserts and returns the new record; the second call with
the same value hits the duplicate check, yields the 409 `DuplicateIdentity`
error, and leaves the store (hence its record count) unchanged. -/
theorem claim3_add_duplicate (hash : String → String) (store : Store)
    (v no1 no2 : String)
    (h : hasId store (analyseString hash v).sha256_hash = false) :
    addString store v (analyseString hash v) no1 =
      (.ok (insertedRecord hash v no1),
       store ++ [(hash v, insertedRecord hash v no1)]) ∧
    (addString (store ++ [(hash v, insertedRecord hash v no1)]) v
        (analyseString hash v) no2).1 = .error duplicateError ∧
    (addString (store ++ [(hash v, insertedRecord hash v no1)]) v
        (analyseString hash v) no2).2 =
      store ++ [(hash v, insertedRecord hash v no1)] ∧
    getCount (addString (store ++ [(hash v, insertedRecord hash v no1)]) v
        (analyseString hash v) no2).2 =
      getCount (store ++ [(hash v, insertedRecord hash v no1)]) ∧
    duplicateError.statusCode = 409 := by
  have hid : (analyseString hash v).sha256_hash = hash v := rfl
  have hdup : hasId (store ++ [(hash v, insertedRecord hash v no1)])
      (analyseString hash v).sha256_hash = true := by
    unfold hasId
    rw [List.any_append]
    simp [hid]
  refine ⟨?_, ?_, ?_, ?_, rfl⟩
  · simp only [addString, h, Bool.false_eq_true, if_false]
    rfl
  · simp only [addString, hdup, if_true]
  · simp only [addString, hdup, if_true]
  · simp only [addString, hdup, if_true]

/-- C3 witness: the behaviour at a concrete store, value and digest. -/
theorem claim3_witness :
    (addString ([] ++ [("a", insertedRecord (fun s => s) "a" "t1")])
        "a" (analyseString (fun s => s) "a") "t2").1 =
      .error duplicateError :=
  (claim3_add_duplicate (fun s => s) [] "a" "t1" "t2" (by rfl)).2.1

/-- C8: starting from a store containing neither the hash of `v` nor any
record with value `v`, inserting `v` and then deleting it by value returns
`true` and restores exactly the original store (every other record
untouched); looking `v` up in that store signals absence, and a second
delete returns `false` without modifying anything. -/
theorem claim8_delete_by_value (hash : String → String) (store : Store)
    (v now : String)
    (h1 : ∀ e ∈ store, (e.1 == hash v) = false)
    (h2 : ∀ e ∈ store, (e.2.value == v) = false) :
    deleteStringByValue (addString store v (analyseString hash v) now).2 v =
      (true, store) ∧
    getStringByValue store v = none ∧
    deleteStringByValue store v = (false, store) := by
  have hfindv : store.find? (fun e => e.2.value == v) = none :=
    List.find?_eq_none.mpr (fun e he => by rw [h2 e he]; exact Bool.false_ne_true)
  have hadd : (addString store v (analyseString hash v) now).2 =
      store ++ [(hash v, insertedRecord hash v now)] := by
    have hno : hasId store (analyseString hash v).sha256_hash = false := by
      unfold hasId
      exact List.any_eq_false.mpr
        (fun e he => by
          show ¬(e.1 == hash v) = true
          rw [h1 e he]
          exact Bool.false_ne_true)
    simp only [addString, hno, Bool.false_eq_true, if_false]
    rfl
  have hfound : List.find? (fun e => e.2.value == v)
      [(hash v, insertedRecord hash v now)] =
      some (hash v, insertedRecord hash v now) := by
    simp [List.find?, insertedRecord]
  have herase : (store ++ [(hash v, insertedRecord hash v now)]).eraseP
      (fun x => x.1 == hash v) = store := by
    rw [eraseP_append_of_none (p := fun x => x.1 == hash v) _ h1]
    simp [List.eraseP_cons]
  refine ⟨?_, ?_, ?_⟩
  · rw [hadd]
    simp only [deleteStringByValue, List.find?_append, hfindv, Option.none_or,
      hfound, herase]
  · unfold getStringByValue
    rw [hfindv]
  · unfold deleteStringByValue
    rw [hfindv]

/-- C8 witness: delete-after-insert at a concrete store with one other
record, which survives untouched. -/
theorem claim8_witness :
    deleteStringByValue
      (addString [("x", insertedRecord (fun s => s) "x" "t0")] "a"
        (analyseString (fun s => s) "a") "t1").2 "a" =
    (true, [("x", insertedRecord (fun s => s) "x" "t0")]) :=
  (claim8_delete_by_value (fun s => s)
    [("x", insertedRecord (fun s => s) "x" "t0")] "a" "t1"
    (by decide) (by decide)).1

/-! ### C5: AND semantics of the filter chain -/

/-- C5: the sequential filter chain is one pass keeping exactly the records
that satisfy every filter present (absent keys constrain nothing), and on
records of lengths 3, 5, 7, 10 the filters `min_length = 5, max_length = 9`
keep exactly the length-5 and length-7 records. -/
theorem claim5_filter_and_semantics :
    (∀ (pf : Filters) (records : List StringData),
      applyFilters pf records =
        records.filter (fun r => satisfiesEveryFilter pf r)) ∧
    applyFilters { min_length := some 5, max_length := some 9 } sampleRecords =
      [sampleRecord "abcde", sampleRecord "abcdefg"] := by
  constructor
  · intro pf records
    obtain ⟨ip, wc, mn, mx, cc⟩ := pf
    cases ip <;> cases wc <;> cases mn <;> cases mx <;> cases cc <;>
      simp [applyFilters, satisfiesEveryFilter, List.filter_filter,
        Bool.and_assoc, Bool.and_comm, Bool.and_left_comm]
  · rfl

/-! ### C7: unparseable queries versus empty results -/

/-- C7: no rule matches `"xyz"`, so the translator yields the empty filter
set and the natural-language route answers with the unparseable-query
failure; a parse that recognises at least one filter instead answers `ok`
with the filtered data (possibly empty), an outcome distinct from the
unparseable failure. -/
theorem claim7_unparseable_query :
    parseNaturalLanguageQuery "xyz" = {} ∧
    (∀ records : List StringData,
      filterByNaturalLanguage records (some "xyz") = .badRequestUnparseable) ∧
    (∀ (records : List StringData) (q : String),
      q.isEmpty = false → keysCount (parseNaturalLanguageQuery q) ≠ 0 →
      filterByNaturalLanguage records (some q) =
        .ok (applyFilters (parseNaturalLanguageQuery q) records)
          (parseNaturalLanguageQuery q)) ∧
    (∀ (data : List StringData) (pf : Filters),
      NlResponse.ok data pf ≠ .badRequestUnparseable) := by
  refine ⟨rfl, fun records => rfl, ?_, ?_⟩
  · intro records q hne hk
    simp [filterByNaturalLanguage, hne, hk]
  · intro data pf
    simp

/-- C7 witness: a parsed query over an empty store succeeds with empty
data rather than failing. -/
theorem claim7_witness :
    filterByNaturalLanguage [] (some "palindromic") =
      .ok (applyFilters (parseNaturalLanguageQuery "palindromic") [])
        (parseNaturalLanguageQuery "palindromic") :=
  claim7_unparseable_query.2.2.1 [] "palindromic" (by decide) (by decide)

/-! ### C2: rule-7 versus rule-8 precedence -/

/-- When no ordinal-vowel phrase occurs, rule 9 leaves the filters alone. -/
theorem applyVowels_of_none {q : List Char} (f : Filters)
    (h : ∀ r ∈ vowelRules, containsSeq r.1 q = false) :
    applyVowels q f = f := by
  have h1 : containsSeq ['f', 'i', 'r', 's', 't', ' ', 'v', 'o', 'w', 'e', 'l']
      q = false := h ("first vowel".toList, 'a') (by simp [vowelRules])
  have h2 : containsSeq ['s', 'e', 'c', 'o', 'n', 'd', ' ', 'v', 'o', 'w', 'e',
      'l'] q = false := h ("second vowel".toList, 'e') (by simp [vowelRules])
  have h3 : containsSeq ['t', 'h', 'i', 'r', 'd', ' ', 'v', 'o', 'w', 'e', 'l']
      q = false := h ("third vowel".toList, 'i') (by simp [vowelRules])
  have h4 : containsSeq ['f', 'o', 'u', 'r', 't', 'h', ' ', 'v', 'o', 'w', 'e',
      'l'] q = false := h ("fourth vowel".toList, 'o') (by simp [vowelRules])
  have h5 : containsSeq ['f', 'i', 'f', 't', 'h', ' ', 'v', 'o', 'w', 'e', 'l']
      q = false := h ("fifth vowel".toList, 'u') (by simp [vowelRules])
  simp only [applyVowels, vowelRules, List.foldl_cons, List.foldl_nil]
  simp [h1, h2, h3, h4, h5]

/-- C2 counterexample: on `"with letter a contains b"` rule 7 captures
`'a'` and rule 8 captures `'b'`, yet the resulting filter set holds `'b'`,
not the rule-7 letter — rule 8 is applied even though rule 7 matched. -/
theorem claim2_counterexample :
    findLetterMatch ("with letter a contains b".toList.map Char.toLower) =
      some 'a' ∧
    findContainsEnd ("with letter a contains b".toList.map Char.toLower) =
      some 'b' ∧
    (parseNaturalLanguageQuery "with letter a contains b").contains_character ≠
      some 'a' ∧
    (parseNaturalLanguageQuery "with letter a contains b").contains_character =
      some 'b' := by
  exact ⟨rfl, rfl, by decide, rfl⟩

/-- C2 (amended): rule 8 is evaluated after rule 7 and overwrites it
unconditionally, so whenever both rules match (and no ordinal-vowel phrase
lets rule 9 overwrite again) the letter captured by rule 8 is the one
present in the resulting filter set. -/
theorem claim2_rule8_overwrites (q : String) (c7 c8 : Char)
    (h7 : findLetterMatch (q.toList.map Char.toLower) = some c7)
    (h8 : findContainsEnd (q.toList.map Char.toLower) = some c8)
    (h9 : ∀ r ∈ vowelRules,
      containsSeq r.1 (q.toList.map Char.toLower) = false) :
    (parseNaturalLanguageQuery q).contains_character = some c8 := by
  simp only [parseNaturalLanguageQuery, parseRules]
  rw [applyVowels_of_none _ h9]
  simp only [ruleContainsEnd, h8]

/-- C2 witness: the amended statement evaluated on the counterexample
query. -/
theorem claim2_witness :
    (parseNaturalLanguageQuery "with letter a contains b").contains_character =
      some 'b' :=
  claim2_rule8_overwrites "with letter a contains b" 'a' 'b'
    (by decide) (by decide) (by decide)

/-! ### C6: helper lemmas for symbolic digit runs

The universal C6 statement quantifies over an arbitrary digit run, so the
scans over the fixed words of the query are evaluated and the scan over
the digits is discharged by the lemmas below.  The literal equations allow
the matchers (whose patterns are written as string literals) to be
unfolded against explicit character lists. -/

theorem litLongerThan : "longer than ".toList = ['l', 'o', 'n', 'g', 'e', 'r', ' ', 't', 'h', 'a', 'n', ' '] := rfl

theorem litMoreThan : "more than ".toList = ['m', 'o', 'r', 'e', ' ', 't', 'h', 'a', 'n', ' '] := rfl

theorem litCharacter : " character".toList = [' ', 'c', 'h', 'a', 'r', 'a', 'c', 't', 'e', 'r'] := rfl

theorem litShorterThan : "shorter than ".toList = ['s', 'h', 'o', 'r', 't', 'e', 'r', ' ', 't', 'h', 'a', 'n', ' '] := rfl

theorem litLessThan : "less than ".toList = ['l', 'e', 's', 's', ' ', 't', 'h', 'a', 'n', ' '] := rfl

theorem litAtLeast : "at least ".toList = ['a', 't', ' ', 'l', 'e', 'a', 's', 't', ' '] := rfl

theorem litContain : "contain".toList = ['c', 'o', 'n', 't', 'a', 'i', 'n'] := rfl

theorem litWith : "with".toList = ['w', 'i', 't', 'h'] := rfl

theorem litPalindrom : "palindrom".toList = ['p', 'a', 'l', 'i', 'n', 'd', 'r', 'o', 'm'] := rfl

theorem litSingleWord : "single word".toList = ['s', 'i', 'n', 'g', 'l', 'e', ' ', 'w', 'o', 'r', 'd'] := rfl

theorem litOneWord : "one word".toList = ['o', 'n', 'e', ' ', 'w', 'o', 'r', 'd'] := rfl

theorem litTwoWord : "two word".toList = ['t', 'w', 'o', ' ', 'w', 'o', 'r', 'd'] := rfl

theorem litDoubleWord : "double word".toList = ['d', 'o', 'u', 'b', 'l', 'e', ' ', 'w', 'o', 'r', 'd'] := rfl

theorem litFirstVowel : "first vowel".toList = ['f', 'i', 'r', 's', 't', ' ', 'v', 'o', 'w', 'e', 'l'] := rfl

theorem litSecondVowel : "second vowel".toList = ['s', 'e', 'c', 'o', 'n', 'd', ' ', 'v', 'o', 'w', 'e', 'l'] := rfl

theorem litThirdVowel : "third vowel".toList = ['t', 'h', 'i', 'r', 'd', ' ', 'v', 'o', 'w', 'e', 'l'] := rfl

theorem litFourthVowel : "fourth vowel".toList = ['f', 'o', 'u', 'r', 't', 'h', ' ', 'v', 'o', 'w', 'e', 'l'] := rfl

theorem litFifthVowel : "fifth vowel".toList = ['f', 'i', 'f', 't', 'h', ' ', 'v', 'o', 'w', 'e', 'l'] := rfl

theorem litCharacters : " characters".toList = [' ', 'c', 'h', 'a', 'r', 'a', 'c', 't', 'e', 'r', 's'] := rfl

/-- Stripping a literal off itself-plus-remainder. -/
theorem dropLit_append (xs r : List Char) : dropLit xs (xs ++ r) = some r := by
  induction xs with
  | nil => rfl
  | cons p ps ih => simp [dropLit, ih]

/-- A non-digit character differs from every digit. -/
theorem ne_of_digit {p c : Char} (hp : p.isDigit = false)
    (hc : c.isDigit = true) : p ≠ c := by
  intro h
  subst h
  rw [hc] at hp
  cases hp

/-- A literal match fails on a mismatching head. -/
theorem dropLit_cons_of_ne {p c : Char} {ps cs : List Char} (h : p ≠ c) :
    dropLit (p :: ps) (c :: cs) = none := by
  simp [dropLit, h]

/-- The greedy digit run consumes exactly a digit block followed by a
non-digit (or nothing). -/
theorem takeDigits_append {ds : List Char} (hds : ∀ c ∈ ds, c.isDigit = true)
    {t : List Char} (ht : ∀ c ∈ t.head?, c.isDigit = false) :
    takeDigits (ds ++ t) = (ds, t) := by
  induction ds with
  | nil =>
    simp only [List.nil_append]
    cases t with
    | nil => rfl
    | cons c cs =>
      have hc : c.isDigit = false := ht c rfl
      simp [takeDigits, hc]
  | cons d rest ih =>
    have hd : d.isDigit = true := hds d (by simp)
    simp [takeDigits, hd, ih (fun c hc => hds c (List.mem_cons_of_mem _ hc))]

/-- The greedy digit run consumes a whole digit list. -/
theorem takeDigits_all {ds : List Char} (hds : ∀ c ∈ ds, c.isDigit = true) :
    takeDigits ds = (ds, []) := by
  have h := takeDigits_append hds (t := []) (by intro c hc; cases hc)
  simpa using h

/-- A per-position matcher that fails on digit-headed suffixes lets the
scan slide over a digit block. -/
theorem scanFor_append_none {α : Type} (m : List Char → Option α)
    (hstep : ∀ c cs, c.isDigit = true → m (c :: cs) = none)
    {ds : List Char} (hds : ∀ c ∈ ds, c.isDigit = true) (t : List Char) :
    scanFor m (ds ++ t) = scanFor m t := by
  induction ds with
  | nil => rfl
  | cons d rest ih =>
    have hd : d.isDigit = true := hds d (by simp)
    simp [scanFor, hstep d _ hd,
      ih (fun c hc => hds c (List.mem_cons_of_mem _ hc))]

/-- A pattern with a non-digit head cannot start inside a digit block. -/
theorem containsSeq_append_digits (pat : List Char)
    (hp : ∀ c ∈ pat, c.isDigit = false) (hpne : pat ≠ [])
    {ds : List Char} (hds : ∀ c ∈ ds, c.isDigit = true) (t : List Char) :
    containsSeq pat (ds ++ t) = containsSeq pat t := by
  induction ds with
  | nil => rfl
  | cons d rest ih =>
    have hd : d.isDigit = true := hds d (by simp)
    have hsw : startsWithSeq pat (d :: (rest ++ t)) = false := by
      cases pat with
      | nil => cases hpne rfl
      | cons p ps =>
        have hne : p ≠ d := ne_of_digit (hp p (by simp)) hd
        simp [startsWithSeq, hne]
    simp [containsSeq, hsw,
      ih (fun c hc => hds c (List.mem_cons_of_mem _ hc))]

/-- A digit-free pattern does not occur in a digit block. -/
theorem containsSeq_digits_false (pat : List Char)
    (hp : ∀ c ∈ pat, c.isDigit = false) (hpne : pat ≠ [])
    {ds : List Char} (hds : ∀ c ∈ ds, c.isDigit = true) :
    containsSeq pat ds = false := by
  have h := containsSeq_append_digits pat hp hpne hds []
  rw [List.append_nil] at h
  rw [h]
  cases pat with
  | nil => cases hpne rfl
  | cons p ps => rfl

/-- Lower-casing fixes a digit list. -/
theorem map_toLower_digits {ds : List Char}
    (hds : ∀ c ∈ ds, c.isDigit = true) : ds.map Char.toLower = ds := by
  induction ds with
  | nil => rfl
  | cons d rest ih =>
    simp [toLower_of_isDigit (hds d (by simp)),
      ih (fun c hc => hds c (List.mem_cons_of_mem _ hc))]

/-- Rule 4's matcher fails on a digit-headed suffix. -/
theorem longerAlt_digit (c : Char) (cs : List Char) (hc : c.isDigit = true) :
    longerAlt (c :: cs) = none := by
  simp [longerAlt, matchNumAfter, matchNumThen, litLongerThan, litMoreThan,
    dropLit_cons_of_ne (ne_of_digit (p := 'l') (by decide) hc),
    dropLit_cons_of_ne (ne_of_digit (p := 'm') (by decide) hc)]

/-- Rule 5's matcher fails on a digit-headed suffix. -/
theorem shorterAlt_digit (c : Char) (cs : List Char) (hc : c.isDigit = true) :
    shorterAlt (c :: cs) = none := by
  simp [shorterAlt, matchNumAfter, matchNumThen, litShorterThan, litLessThan,
    dropLit_cons_of_ne (ne_of_digit (p := 's') (by decide) hc),
    dropLit_cons_of_ne (ne_of_digit (p := 'l') (by decide) hc)]

/-- Rule 6's matcher fails on a digit-headed suffix. -/
theorem atLeastM_digit (c : Char) (cs : List Char) (hc : c.isDigit = true) :
    atLeastM (c :: cs) = none := by
  simp [atLeastM, matchNumThen, litAtLeast,
    dropLit_cons_of_ne (ne_of_digit (p := 'a') (by decide) hc)]

/-- Rule 7's matcher fails on a digit-headed suffix. -/
theorem letterAlt_digit (c : Char) (cs : List Char) (hc : c.isDigit = true) :
    letterAlt (c :: cs) = none := by
  simp [letterAlt, matchContainAt, litContain, litWith,
    dropLit_cons_of_ne (ne_of_digit (p := 'c') (by decide) hc),
    dropLit_cons_of_ne (ne_of_digit (p := 'w') (by decide) hc)]

/-- Rule 8's matcher fails on a digit-headed suffix. -/
theorem containsEndM_digit (c : Char) (cs : List Char) (hc : c.isDigit = true) :
    containsEndM (c :: cs) = none := by
  simp [containsEndM, matchContainAt, litContain,
    dropLit_cons_of_ne (ne_of_digit (p := 'c') (by decide) hc)]

/-- Assembling `parseNaturalLanguageQuery` from the results of its nine
rules, in the common case where only rule 4 and/or rule 5 fire. -/
theorem parse_of_rule_results (q : String) (r4 r5 : Option Nat)
    (h1 : containsSeq "palindrom".toList (q.toList.map Char.toLower) = false)
    (h2a : containsSeq "single word".toList (q.toList.map Char.toLower) = false)
    (h2b : containsSeq "one word".toList (q.toList.map Char.toLower) = false)
    (h3a : containsSeq "two word".toList (q.toList.map Char.toLower) = false)
    (h3b : containsSeq "double word".toList (q.toList.map Char.toLower) = false)
    (h4 : findLongerThan (q.toList.map Char.toLower) = r4)
    (h5 : findShorterThan (q.toList.map Char.toLower) = r5)
    (h6 : findAtLeast (q.toList.map Char.toLower) = none)
    (h7 : findLetterMatch (q.toList.map Char.toLower) = none)
    (h8 : findContainsEnd (q.toList.map Char.toLower) = none)
    (h9 : ∀ r ∈ vowelRules,
      containsSeq r.1 (q.toList.map Char.toLower) = false) :
    parseNaturalLanguageQuery q =
      { min_length := Option.map (fun n => (n : Int) + 1) r4,
        max_length := Option.map (fun n => (n : Int) - 1) r5 } := by
  simp only [parseNaturalLanguageQuery, parseRules]
  rw [applyVowels_of_none _ h9]
  simp only [rulePalindrome, ruleSingleWord, ruleTwoWord, ruleLongerThan,
    ruleShorterThan, ruleAtLeast, ruleLetter, ruleContainsEnd,
    h1, h2a, h2b, h3a, h3b, h4, h5, h6, h7, h8]
  cases r4 <;> cases r5 <;> rfl

/-- Rule 4 captures the digit run of a query of the exact shape
`longer than N`, and no other rule fires, so the parse is
`min_length = N + 1`. -/
theorem parse_longer_than (N : Nat) (ds : List Char) (hne : ds ≠ [])
    (hds : ∀ c ∈ ds, c.isDigit = true) (hN : digitsToNat 0 ds = N) :
    parseNaturalLanguageQuery (String.mk ("longer than ".toList ++ ds)) =
      { min_length := some ((N : Int) + 1) } := by
  have hlq : (String.mk ("longer than ".toList ++ ds)).toList.map Char.toLower
      = "longer than ".toList ++ ds := by
    show ("longer than ".toList ++ ds).map Char.toLower = _
    rw [List.map_append, map_toLower_digits hds]
    rfl
  have hie : ds.isEmpty = false := by
    cases ds with
    | nil => cases hne rfl
    | cons a l => rfl
  have htd : takeDigits ds = (ds, []) := takeDigits_all hds
  have h4q : findLongerThan ("longer than ".toList ++ ds) = some N := by
    simp +decide [findLongerThan, scanFor, longerAlt, matchNumAfter,
      matchNumThen, dropLit, litLongerThan, litMoreThan, litCharacter,
      List.cons_append, List.nil_append, htd, hie, hN]
  have h5q : findShorterThan ("longer than ".toList ++ ds) = none := by
    have hrest : scanFor shorterAlt ds = none := by
      rw [← List.append_nil ds,
        scanFor_append_none shorterAlt shorterAlt_digit hds]
      decide
    simp +decide [findShorterThan, scanFor, shorterAlt, matchNumAfter,
      matchNumThen, dropLit, litShorterThan, litLessThan, litCharacter,
      litLongerThan, List.cons_append, List.nil_append, hrest]
  have h6q : findAtLeast ("longer than ".toList ++ ds) = none := by
    have hrest : scanFor atLeastM ds = none := by
      rw [← List.append_nil ds, scanFor_append_none atLeastM atLeastM_digit hds]
      decide
    simp +decide [findAtLeast, scanFor, atLeastM, matchNumThen, dropLit,
      litAtLeast, litLongerThan, List.cons_append, List.nil_append, hrest]
  have h7q : findLetterMatch ("longer than ".toList ++ ds) = none := by
    have hrest : scanFor letterAlt ds = none := by
      rw [← List.append_nil ds, scanFor_append_none letterAlt letterAlt_digit hds]
      decide
    simp +decide [findLetterMatch, scanFor, letterAlt, matchContainAt, dropLit,
      litContain, litWith, litLongerThan, List.cons_append, List.nil_append,
      hrest]
  have h8q : findContainsEnd ("longer than ".toList ++ ds) = none := by
    have hrest : scanFor containsEndM ds = none := by
      rw [← List.append_nil ds,
        scanFor_append_none containsEndM containsEndM_digit hds]
      decide
    simp +decide [findContainsEnd, scanFor, containsEndM, matchContainAt,
      dropLit, litContain, litLongerThan, List.cons_append, List.nil_append,
      hrest]
  have hpal : containsSeq "palindrom".toList ("longer than ".toList ++ ds)
      = false := by
    simp +decide [containsSeq, startsWithSeq, litPalindrom, litLongerThan,
      List.cons_append, List.nil_append,
      containsSeq_digits_false ['p', 'a', 'l', 'i', 'n', 'd', 'r', 'o', 'm']
        (by decide) (by decide) hds]
  have hsingle : containsSeq "single word".toList ("longer than ".toList ++ ds)
      = false := by
    simp +decide [containsSeq, startsWithSeq, litSingleWord, litLongerThan,
      List.cons_append, List.nil_append,
      containsSeq_digits_false
        ['s', 'i', 'n', 'g', 'l', 'e', ' ', 'w', 'o', 'r', 'd']
        (by decide) (by decide) hds]
  have hone : containsSeq "one word".toList ("longer than ".toList ++ ds)
      = false := by
    simp +decide [containsSeq, startsWithSeq, litOneWord, litLongerThan,
      List.cons_append, List.nil_append,
      containsSeq_digits_false ['o', 'n', 'e', ' ', 'w', 'o', 'r', 'd']
        (by decide) (by decide) hds]
  have htwo : containsSeq "two word".toList ("longer than ".toList ++ ds)
      = false := by
    simp +decide [containsSeq, startsWithSeq, litTwoWord, litLongerThan,
      List.cons_append, List.nil_append,
      containsSeq_digits_false ['t', 'w', 'o', ' ', 'w', 'o', 'r', 'd']
        (by decide) (by decide) hds]
  have hdouble : containsSeq "double word".toList ("longer than ".toList ++ ds)
      = false := by
    simp +decide [containsSeq, startsWithSeq, litDoubleWord, litLongerThan,
      List.cons_append, List.nil_append,
      containsSeq_digits_false
        ['d', 'o', 'u', 'b', 'l', 'e', ' ', 'w', 'o', 'r', 'd']
        (by decide) (by decide) hds]
  have h9q : ∀ r ∈ vowelRules,
      containsSeq r.1 ("longer than ".toList ++ ds) = false := by
    have e1 : containsSeq "first vowel".toList ("longer than ".toList ++ ds)
        = false := by
      simp +decide [containsSeq, startsWithSeq, litFirstVowel, litLongerThan,
        List.cons_append, List.nil_append,
        containsSeq_digits_false
          ['f', 'i', 'r', 's', 't', ' ', 'v', 'o', 'w', 'e', 'l']
          (by decide) (by decide) hds]
    have e2 : containsSeq "second vowel".toList ("longer than ".toList ++ ds)
        = false := by
      simp +decide [containsSeq, startsWithSeq, litSecondVowel, litLongerThan,
        List.cons_append, List.nil_append,
        containsSeq_digits_false
          ['s', 'e', 'c', 'o', 'n', 'd', ' ', 'v', 'o', 'w', 'e', 'l']
          (by decide) (by decide) hds]
    have e3 : containsSeq "third vowel".toList ("longer than ".toList ++ ds)
        = false := by
      simp +decide [containsSeq, startsWithSeq, litThirdVowel, litLongerThan,
        List.cons_append, List.nil_append,
        containsSeq_digits_false
          ['t', 'h', 'i', 'r', 'd', ' ', 'v', 'o', 'w', 'e', 'l']
          (by decide) (by decide) hds]
    have e4 : containsSeq "fourth vowel".toList ("longer than ".toList ++ ds)
        = false := by
      simp +decide [containsSeq, startsWithSeq, litFourthVowel, litLongerThan,
        List.cons_append, List.nil_append,
        containsSeq_digits_false
          ['f', 'o', 'u', 'r', 't', 'h', ' ', 'v', 'o', 'w', 'e', 'l']
          (by decide) (by decide) hds]
    have e5 : containsSeq "fifth vowel".toList ("longer than ".toList ++ ds)
        = false := by
      simp +decide [containsSeq, startsWithSeq, litFifthVowel, litLongerThan,
        List.cons_append, List.nil_append,
        containsSeq_digits_false
          ['f', 'i', 'f', 't', 'h', ' ', 'v', 'o', 'w', 'e', 'l']
          (by decide) (by decide) hds]
    intro r hr
    simp [vowelRules] at hr
    rcases hr with hr | hr | hr | hr | hr <;> rw [hr]
    · exact e1
    · exact e2
    · exact e3
    · exact e4
    · exact e5
  exact (parse_of_rule_results _ (some N) none
    (by rw [hlq]; exact hpal) (by rw [hlq]; exact hsingle)
    (by rw [hlq]; exact hone) (by rw [hlq]; exact htwo)
    (by rw [hlq]; exact hdouble) (by rw [hlq]; exact h4q)
    (by rw [hlq]; exact h5q) (by rw [hlq]; exact h6q)
    (by rw [hlq]; exact h7q) (by rw [hlq]; exact h8q)
    (fun r hr => by rw [hlq]; exact h9q r hr)).trans rfl

/-- Rule 5 captures the digit run of a query of the exact shape
`shorter than N`, and no other rule fires, so the parse is
`max_length = N - 1`. -/
theorem parse_shorter_than (N : Nat) (ds : List Char) (hne : ds ≠ [])
    (hds : ∀ c ∈ ds, c.isDigit = true) (hN : digitsToNat 0 ds = N) :
    parseNaturalLanguageQuery (String.mk ("shorter than ".toList ++ ds)) =
      { max_length := some ((N : Int) - 1) } := by
  have hlq : (String.mk ("shorter than ".toList ++ ds)).toList.map Char.toLower
      = "shorter than ".toList ++ ds := by
    show ("shorter than ".toList ++ ds).map Char.toLower = _
    rw [List.map_append, map_toLower_digits hds]
    rfl
  have hie : ds.isEmpty = false := by
    cases ds with
    | nil => cases hne rfl
    | cons a l => rfl
  have htd : takeDigits ds = (ds, []) := takeDigits_all hds
  have h4q : findLongerThan ("shorter than ".toList ++ ds) = none := by
    have hrest : scanFor longerAlt ds = none := by
      rw [← List.append_nil ds,
        scanFor_append_none longerAlt longerAlt_digit hds]
      decide
    simp +decide [findLongerThan, scanFor, longerAlt, matchNumAfter,
      matchNumThen, dropLit, litLongerThan, litMoreThan, litCharacter,
      litShorterThan, List.cons_append, List.nil_append, hrest]
  have h5q : findShorterThan ("shorter than ".toList ++ ds) = some N := by
    simp +decide [findShorterThan, scanFor, shorterAlt, matchNumAfter,
      matchNumThen, dropLit, litShorterThan, litLessThan, litCharacter,
      litShorterThan, List.cons_append, List.nil_append, htd, hie, hN]
  have h6q : findAtLeast ("shorter than ".toList ++ ds) = none := by
    have hrest : scanFor atLeastM ds = none := by
      rw [← List.append_nil ds, scanFor_append_none atLeastM atLeastM_digit hds]
      decide
    simp +decide [findAtLeast, scanFor, atLeastM, matchNumThen, dropLit,
      litAtLeast, litShorterThan, List.cons_append, List.nil_append, hrest]
  have h7q : findLetterMatch ("shorter than ".toList ++ ds) = none := by
    have hrest : scanFor letterAlt ds = none := by
      rw [← List.append_nil ds, scanFor_append_none letterAlt letterAlt_digit hds]
      decide
    simp +decide [findLetterMatch, scanFor, letterAlt, matchContainAt, dropLit,
      litContain, litWith, litShorterThan, List.cons_append, List.nil_append,
      hrest]
  have h8q : findContainsEnd ("shorter than ".toList ++ ds) = none := by
    have hrest : scanFor containsEndM ds = none := by
      rw [← List.append_nil ds,
        scanFor_append_none containsEndM containsEndM_digit hds]
      decide
    simp +decide [findContainsEnd, scanFor, containsEndM, matchContainAt,
      dropLit, litContain, litShorterThan, List.cons_append, List.nil_append,
      hrest]
  have hpal : containsSeq "palindrom".toList ("shorter than ".toList ++ ds)
      = false := by
    simp +decide [containsSeq, startsWithSeq, litPalindrom, litShorterThan,
      List.cons_append, List.nil_append,
      containsSeq_digits_false ['p', 'a', 'l', 'i', 'n', 'd', 'r', 'o', 'm']
        (by decide) (by decide) hds]
  have hsingle : containsSeq "single word".toList ("shorter than ".toList ++ ds)
      = false := by
    simp +decide [containsSeq, startsWithSeq, litSingleWord, litShorterThan,
      List.cons_append, List.nil_append,
      containsSeq_digits_false ['s', 'i', 'n', 'g', 'l', 'e', ' ', 'w', 'o', 'r', 'd']
        (by decide) (by decide) hds]
  have hone : containsSeq "one word".toList ("shorter than ".toList ++ ds)
      = false := by
    simp +decide [containsSeq, startsWithSeq, litOneWord, litShorterThan,
      List.cons_append, List.nil_append,
      containsSeq_digits_false ['o', 'n', 'e', ' ', 'w', 'o', 'r', 'd']
        (by decide) (by decide) hds]
  have htwo : containsSeq "two word".toList ("shorter than ".toList ++ ds)
      = false := by
    simp +decide [containsSeq, startsWithSeq, litTwoWord, litShorterThan,
      List.cons_append, List.nil_append,
      containsSeq_digits_false ['t', 'w', 'o', ' ', 'w', 'o', 'r', 'd']
        (by decide) (by decide) hds]
  have hdouble : containsSeq "double word".toList ("shorter than ".toList ++ ds)
      = false := by
    simp +decide [containsSeq, startsWithSeq, litDoubleWord, litShorterThan,
      List.cons_append, List.nil_append,
      containsSeq_digits_false ['d', 'o', 'u', 'b', 'l', 'e', ' ', 'w', 'o', 'r', 'd']
        (by decide) (by decide) hds]
  have h9q : ∀ r ∈ vowelRules,
      containsSeq r.1 ("shorter than ".toList ++ ds) = false := by
    have e1 : containsSeq "first vowel".toList ("shorter than ".toList ++ ds)
        = false := by
      simp +decide [containsSeq, startsWithSeq, litFirstVowel, litShorterThan,
        List.cons_append, List.nil_append,
        containsSeq_digits_false ['f', 'i', 'r', 's', 't', ' ', 'v', 'o', 'w', 'e', 'l']
          (by decide) (by decide) hds]
    have e2 : containsSeq "second vowel".toList ("shorter than ".toList ++ ds)
        = false := by
      simp +decide [containsSeq, startsWithSeq, litSecondVowel, litShorterThan,
        List.cons_append, List.nil_append,
        containsSeq_digits_false ['s', 'e', 'c', 'o', 'n', 'd', ' ', 'v', 'o', 'w', 'e', 'l']
          (by decide) (by decide) hds]
    have e3 : containsSeq "third vowel".toList ("shorter than ".toList ++ ds)
        = false := by
      simp +decide [containsSeq, startsWithSeq, litThirdVowel, litShorterThan,
        List.cons_append, List.nil_append,
        containsSeq_digits_false ['t', 'h', 'i', 'r', 'd', ' ', 'v', 'o', 'w', 'e', 'l']
          (by decide) (by decide) hds]
    have e4 : containsSeq "fourth vowel".toList ("shorter than ".toList ++ ds)
        = false := by
      simp +decide [containsSeq, startsWithSeq, litFourthVowel, litShorterThan,
        List.cons_append, List.nil_append,
        containsSeq_digits_false ['f', 'o', 'u', 'r', 't', 'h', ' ', 'v', 'o', 'w', 'e', 'l']
          (by decide) (by decide) hds]
    have e5 : containsSeq "fifth vowel".toList ("shorter than ".toList ++ ds)
        = false := by
      simp +decide [containsSeq, startsWithSeq, litFifthVowel, litShorterThan,
        List.cons_append, List.nil_append,
        containsSeq_digits_false ['f', 'i', 'f', 't', 'h', ' ', 'v', 'o', 'w', 'e', 'l']
          (by decide) (by decide) hds]
    intro r hr
    simp [vowelRules] at hr
    rcases hr with hr | hr | hr | hr | hr <;> rw [hr]
    · exact e1
    · exact e2
    · exact e3
    · exact e4
    · exact e5
  exact (parse_of_rule_results _ none (some N)
    (by rw [hlq]; exact hpal) (by rw [hlq]; exact hsingle)
    (by rw [hlq]; exact hone) (by rw [hlq]; exact htwo)
    (by rw [hlq]; exact hdouble) (by rw [hlq]; exact h4q)
    (by rw [hlq]; exact h5q) (by rw [hlq]; exact h6q)
    (by rw [hlq]; exact h7q) (by rw [hlq]; exact h8q)
    (fun r hr => by rw [hlq]; exact h9q r hr)).trans rfl

/-- Rule 4 (second alternative) captures the digit run of a query of the
exact shape `more than N characters`, and no other rule fires, so the
parse is `min_length = N + 1`. -/
theorem parse_more_than (N : Nat) (ds : List Char) (hne : ds ≠ [])
    (hds : ∀ c ∈ ds, c.isDigit = true) (hN : digitsToNat 0 ds = N) :
    parseNaturalLanguageQuery (String.mk ("more than ".toList ++ (ds ++ " characters".toList))) =
      { min_length := some ((N : Int) + 1) } := by
  have hlq : (String.mk ("more than ".toList ++ (ds ++ " characters".toList))).toList.map Char.toLower
      = "more than ".toList ++ (ds ++ " characters".toList) := by
    show ("more than ".toList ++ (ds ++ " characters".toList)).map Char.toLower = _
    rw [List.map_append, List.map_append, map_toLower_digits hds]
    rfl
  have hie : ds.isEmpty = false := by
    cases ds with
    | nil => cases hne rfl
    | cons a l => rfl
  have htd : takeDigits (ds ++ [' ', 'c', 'h', 'a', 'r', 'a', 'c', 't', 'e', 'r', 's']) = (ds, [' ', 'c', 'h', 'a', 'r', 'a', 'c', 't', 'e', 'r', 's']) :=
    takeDigits_append hds (by decide)
  have h4q : findLongerThan ("more than ".toList ++ (ds ++ " characters".toList)) = some N := by
    simp +decide [findLongerThan, scanFor, longerAlt, matchNumAfter,
      matchNumThen, dropLit, litLongerThan, litMoreThan, litCharacter,
      litCharacters, litMoreThan, List.cons_append, List.nil_append,
      htd, hie, hN]
  have h5q : findShorterThan ("more than ".toList ++ (ds ++ " characters".toList)) = none := by
    have hrest : scanFor shorterAlt (ds ++ [' ', 'c', 'h', 'a', 'r', 'a', 'c', 't', 'e', 'r', 's']) = none := by
      rw [scanFor_append_none shorterAlt shorterAlt_digit hds]
      decide
    simp +decide [findShorterThan, scanFor, shorterAlt, matchNumAfter,
      matchNumThen, dropLit, litShorterThan, litLessThan, litCharacter,
      litCharacters, litMoreThan, List.cons_append, List.nil_append, hrest]
  have h6q : findAtLeast ("more than ".toList ++ (ds ++ " characters".toList)) = none := by
    have hrest : scanFor atLeastM (ds ++ [' ', 'c', 'h', 'a', 'r', 'a', 'c', 't', 'e', 'r', 's']) = none := by
      rw [scanFor_append_none atLeastM atLeastM_digit hds]
      decide
    simp +decide [findAtLeast, scanFor, atLeastM, matchNumThen, dropLit,
      litAtLeast, litCharacter, litCharacters, litMoreThan,
      List.cons_append, List.nil_append, hrest]
  have h7q : findLetterMatch ("more than ".toList ++ (ds ++ " characters".toList)) = none := by
    have hrest : scanFor letterAlt (ds ++ [' ', 'c', 'h', 'a', 'r', 'a', 'c', 't', 'e', 'r', 's']) = none := by
      rw [scanFor_append_none letterAlt letterAlt_digit hds]
      decide
    simp +decide [findLetterMatch, scanFor, letterAlt, matchContainAt, dropLit,
      litContain, litWith, litCharacters, litMoreThan, List.cons_append,
      List.nil_append, hrest]
  have h8q : findContainsEnd ("more than ".toList ++ (ds ++ " characters".toList)) = none := by
    have hrest : scanFor containsEndM (ds ++ [' ', 'c', 'h', 'a', 'r', 'a', 'c', 't', 'e', 'r', 's']) = none := by
      rw [scanFor_append_none containsEndM containsEndM_digit hds]
      decide
    simp +decide [findContainsEnd, scanFor, containsEndM, matchContainAt,
      dropLit, litContain, litCharacters, litMoreThan, List.cons_append,
      List.nil_append, hrest]
  have hpal : containsSeq "palindrom".toList ("more than ".toList ++ (ds ++ " characters".toList))
      = false := by
    simp +decide [containsSeq, startsWithSeq, litPalindrom, litMoreThan,
      litCharacters, List.cons_append, List.nil_append,
      containsSeq_append_digits ['p', 'a', 'l', 'i', 'n', 'd', 'r', 'o', 'm']
        (by decide) (by decide) hds [' ', 'c', 'h', 'a', 'r', 'a', 'c', 't', 'e', 'r', 's']]
  have hsingle : containsSeq "single word".toList ("more than ".toList ++ (ds ++ " characters".toList))
      = false := by
    simp +decide [containsSeq, startsWithSeq, litSingleWord, litMoreThan,
      litCharacters, List.cons_append, List.nil_append,
      containsSeq_append_digits ['s', 'i', 'n', 'g', 'l', 'e', ' ', 'w', 'o', 'r', 'd']
        (by decide) (by decide) hds [' ', 'c', 'h', 'a', 'r', 'a', 'c', 't', 'e', 'r', 's']]
  have hone : containsSeq "one word".toList ("more than ".toList ++ (ds ++ " characters".toList))
      = false := by
    simp +decide [containsSeq, startsWithSeq, litOneWord, litMoreThan,
      litCharacters, List.cons_append, List.nil_append,
      containsSeq_append_digits ['o', 'n', 'e', ' ', 'w', 'o', 'r', 'd']
        (by decide) (by decide) hds [' ', 'c', 'h', 'a', 'r', 'a', 'c', 't', 'e', 'r', 's']]
  have htwo : containsSeq "two word".toList ("more than ".toList ++ (ds ++ " characters".toList))
      = false := by
    simp +decide [containsSeq, startsWithSeq, litTwoWord, litMoreThan,
      litCharacters, List.cons_append, List.nil_append,
      containsSeq_append_digits ['t', 'w', 'o', ' ', 'w', 'o', 'r', 'd']
        (by decide) (by decide) hds [' ', 'c', 'h', 'a', 'r', 'a', 'c', 't', 'e', 'r', 's']]
  have hdouble : containsSeq "double word".toList ("more than ".toList ++ (ds ++ " characters".toList))
      = false := by
    simp +decide [containsSeq, startsWithSeq, litDoubleWord, litMoreThan,
      litCharacters, List.cons_append, List.nil_append,
      containsSeq_append_digits ['d', 'o', 'u', 'b', 'l', 'e', ' ', 'w', 'o', 'r', 'd']
        (by decide) (by decide) hds [' ', 'c', 'h', 'a', 'r', 'a', 'c', 't', 'e', 'r', 's']]
  have h9q : ∀ r ∈ vowelRules,
      containsSeq r.1 ("more than ".toList ++ (ds ++ " characters".toList)) = false := by
    have e1 : containsSeq "first vowel".toList ("more than ".toList ++ (ds ++ " characters".toList))
        = false := by
      simp +decide [containsSeq, startsWithSeq, litFirstVowel, litMoreThan,
        litCharacters, List.cons_append, List.nil_append,
        containsSeq_append_digits ['f', 'i', 'r', 's', 't', ' ', 'v', 'o', 'w', 'e', 'l']
          (by decide) (by decide) hds [' ', 'c', 'h', 'a', 'r', 'a', 'c', 't', 'e', 'r', 's']]
    have e2 : containsSeq "second vowel".toList ("more than ".toList ++ (ds ++ " characters".toList))
        = false := by
      simp +decide [containsSeq, startsWithSeq, litSecondVowel, litMoreThan,
        litCharacters, List.cons_append, List.nil_append,
        containsSeq_append_digits ['s', 'e', 'c', 'o', 'n', 'd', ' ', 'v', 'o', 'w', 'e', 'l']
          (by decide) (by decide) hds [' ', 'c', 'h', 'a', 'r', 'a', 'c', 't', 'e', 'r', 's']]
    have e3 : containsSeq "third vowel".toList ("more than ".toList ++ (ds ++ " characters".toList))
        = false := by
      simp +decide [containsSeq, startsWithSeq, litThirdVowel, litMoreThan,
        litCharacters, List.cons_append, List.nil_append,
        containsSeq_append_digits ['t', 'h', 'i', 'r', 'd', ' ', 'v', 'o', 'w', 'e', 'l']
          (by decide) (by decide) hds [' ', 'c', 'h', 'a', 'r', 'a', 'c', 't', 'e', 'r', 's']]
    have e4 : containsSeq "fourth vowel".toList ("more than ".toList ++ (ds ++ " characters".toList))
        = false := by
      simp +decide [containsSeq, startsWithSeq, litFourthVowel, litMoreThan,
        litCharacters, List.cons_append, List.nil_append,
        containsSeq_append_digits ['f', 'o', 'u', 'r', 't', 'h', ' ', 'v', 'o', 'w', 'e', 'l']
          (by decide) (by decide) hds [' ', 'c', 'h', 'a', 'r', 'a', 'c', 't', 'e', 'r', 's']]
    have e5 : containsSeq "fifth vowel".toList ("more than ".toList ++ (ds ++ " characters".toList))
        = false := by
      simp +decide [containsSeq, startsWithSeq, litFifthVowel, litMoreThan,
        litCharacters, List.cons_append, List.nil_append,
        containsSeq_append_digits ['f', 'i', 'f', 't', 'h', ' ', 'v', 'o', 'w', 'e', 'l']
          (by decide) (by decide) hds [' ', 'c', 'h', 'a', 'r', 'a', 'c', 't', 'e', 'r', 's']]
    intro r hr
    simp [vowelRules] at hr
    rcases hr with hr | hr | hr | hr | hr <;> rw [hr]
    · exact e1
    · exact e2
    · exact e3
    · exact e4
    · exact e5
  exact (parse_of_rule_results _ (some N) none
    (by rw [hlq]; exact hpal) (by rw [hlq]; exact hsingle)
    (by rw [hlq]; exact hone) (by rw [hlq]; exact htwo)
    (by rw [hlq]; exact hdouble) (by rw [hlq]; exact h4q)
    (by rw [hlq]; exact h5q) (by rw [hlq]; exact h6q)
    (by rw [hlq]; exact h7q) (by rw [hlq]; exact h8q)
    (fun r hr => by rw [hlq]; exact h9q r hr)).trans rfl

/-- Rule 5 (second alternative) captures the digit run of a query of the
exact shape `less than N characters`, and no other rule fires, so the
parse is `max_length = N - 1`. -/
theorem parse_less_than (N : Nat) (ds : List Char) (hne : ds ≠ [])
    (hds : ∀ c ∈ ds, c.isDigit = true) (hN : digitsToNat 0 ds = N) :
    parseNaturalLanguageQuery (String.mk ("less than ".toList ++ (ds ++ " characters".toList))) =
      { max_length := some ((N : Int) - 1) } := by
  have hlq : (String.mk ("less than ".toList ++ (ds ++ " characters".toList))).toList.map Char.toLower
      = "less than ".toList ++ (ds ++ " characters".toList) := by
    show ("less than ".toList ++ (ds ++ " characters".toList)).map Char.toLower = _
    rw [List.map_append, List.map_append, map_toLower_digits hds]
    rfl
  have hie : ds.isEmpty = false := by
    cases ds with
    | nil => cases hne rfl
    | cons a l => rfl
  have htd : takeDigits (ds ++ [' ', 'c', 'h', 'a', 'r', 'a', 'c', 't', 'e', 'r', 's']) = (ds, [' ', 'c', 'h', 'a', 'r', 'a', 'c', 't', 'e', 'r', 's']) :=
    takeDigits_append hds (by decide)
  have h4q : findLongerThan ("less than ".toList ++ (ds ++ " characters".toList)) = none := by
    have hrest : scanFor longerAlt (ds ++ [' ', 'c', 'h', 'a', 'r', 'a', 'c', 't', 'e', 'r', 's']) = none := by
      rw [scanFor_append_none longerAlt longerAlt_digit hds]
      decide
    simp +decide [findLongerThan, scanFor, longerAlt, matchNumAfter,
      matchNumThen, dropLit, litLongerThan, litMoreThan, litCharacter,
      litCharacters, litLessThan, List.cons_append, List.nil_append, hrest]
  have h5q : findShorterThan ("less than ".toList ++ (ds ++ " characters".toList)) = some N := by
    simp +decide [findShorterThan, scanFor, shorterAlt, matchNumAfter,
      matchNumThen, dropLit, litShorterThan, litLessThan, litCharacter,
      litCharacters, litLessThan, List.cons_append, List.nil_append,
      htd, hie, hN]
  have h6q : findAtLeast ("less than ".toList ++ (ds ++ " characters".toList)) = none := by
    have hrest : scanFor atLeastM (ds ++ [' ', 'c', 'h', 'a', 'r', 'a', 'c', 't', 'e', 'r', 's']) = none := by
      rw [scanFor_append_none atLeastM atLeastM_digit hds]
      decide
    simp +decide [findAtLeast, scanFor, atLeastM, matchNumThen, dropLit,
      litAtLeast, litCharacter, litCharacters, litLessThan,
      List.cons_append, List.nil_append, hrest]
  have h7q : findLetterMatch ("less than ".toList ++ (ds ++ " characters".toList)) = none := by
    have hrest : scanFor letterAlt (ds ++ [' ', 'c', 'h', 'a', 'r', 'a', 'c', 't', 'e', 'r', 's']) = none := by
      rw [scanFor_append_none letterAlt letterAlt_digit hds]
      decide
    simp +decide [findLetterMatch, scanFor, letterAlt, matchContainAt, dropLit,
      litContain, litWith, litCharacters, litLessThan, List.cons_append,
      List.nil_append, hrest]
  have h8q : findContainsEnd ("less than ".toList ++ (ds ++ " characters".toList)) = none := by
    have hrest : scanFor containsEndM (ds ++ [' ', 'c', 'h', 'a', 'r', 'a', 'c', 't', 'e', 'r', 's']) = none := by
      rw [scanFor_append_none containsEndM containsEndM_digit hds]
      decide
    simp +decide [findContainsEnd, scanFor, containsEndM, matchContainAt,
      dropLit, litContain, litCharacters, litLessThan, List.cons_append,
      List.nil_append, hrest]
  have hpal : containsSeq "palindrom".toList ("less than ".toList ++ (ds ++ " characters".toList))
      = false := by
    simp +decide [containsSeq, startsWithSeq, litPalindrom, litLessThan,
      litCharacters, List.cons_append, List.nil_append,
      containsSeq_append_digits ['p', 'a', 'l', 'i', 'n', 'd', 'r', 'o', 'm']
        (by decide) (by decide) hds [' ', 'c', 'h', 'a', 'r', 'a', 'c', 't', 'e', 'r', 's']]
  have hsingle : containsSeq "single word".toList ("less than ".toList ++ (ds ++ " characters".toList))
      = false := by
    simp +decide [containsSeq, startsWithSeq, litSingleWord, litLessThan,
      litCharacters, List.cons_append, List.nil_append,
      containsSeq_append_digits ['s', 'i', 'n', 'g', 'l', 'e', ' ', 'w', 'o', 'r', 'd']
        (by decide) (by decide) hds [' ', 'c', 'h', 'a', 'r', 'a', 'c', 't', 'e', 'r', 's']]
  have hone : containsSeq "one word".toList ("less than ".toList ++ (ds ++ " characters".toList))
      = false := by
    simp +decide [containsSeq, startsWithSeq, litOneWord, litLessThan,
      litCharacters, List.cons_append, List.nil_append,
      containsSeq_append_digits ['o', 'n', 'e', ' ', 'w', 'o', 'r', 'd']
        (by decide) (by decide) hds [' ', 'c', 'h', 'a', 'r', 'a', 'c', 't', 'e', 'r', 's']]
  have htwo : containsSeq "two word".toList ("less than ".toList ++ (ds ++ " characters".toList))
      = false := by
    simp +decide [containsSeq, startsWithSeq, litTwoWord, litLessThan,
      litCharacters, List.cons_append, List.nil_append,
      containsSeq_append_digits ['t', 'w', 'o', ' ', 'w', 'o', 'r', 'd']
        (by decide) (by decide) hds [' ', 'c', 'h', 'a', 'r', 'a', 'c', 't', 'e', 'r', 's']]
  have hdouble : containsSeq "double word".toList ("less than ".toList ++ (ds ++ " characters".toList))
      = false := by
    simp +decide [containsSeq, startsWithSeq, litDoubleWord, litLessThan,
      litCharacters, List.cons_append, List.nil_append,
      containsSeq_append_digits ['d', 'o', 'u', 'b', 'l', 'e', ' ', 'w', 'o', 'r', 'd']
        (by decide) (by decide) hds [' ', 'c', 'h', 'a', 'r', 'a', 'c', 't', 'e', 'r', 's']]
  have h9q : ∀ r ∈ vowelRules,
      containsSeq r.1 ("less than ".toList ++ (ds ++ " characters".toList)) = false := by
    have e1 : containsSeq "first vowel".toList ("less than ".toList ++ (ds ++ " characters".toList))
        = false := by
      simp +decide [containsSeq, startsWithSeq, litFirstVowel, litLessThan,
        litCharacters, List.cons_append, List.nil_append,
        containsSeq_append_digits ['f', 'i', 'r', 's', 't', ' ', 'v', 'o', 'w', 'e', 'l']
          (by decide) (by decide) hds [' ', 'c', 'h', 'a', 'r', 'a', 'c', 't', 'e', 'r', 's']]
    have e2 : containsSeq "second vowel".toList ("less than ".toList ++ (ds ++ " characters".toList))
        = false := by
      simp +decide [containsSeq, startsWithSeq, litSecondVowel, litLessThan,
        litCharacters, List.cons_append, List.nil_append,
        containsSeq_append_digits ['s', 'e', 'c', 'o', 'n', 'd', ' ', 'v', 'o', 'w', 'e', 'l']
          (by decide) (by decide) hds [' ', 'c', 'h', 'a', 'r', 'a', 'c', 't', 'e', 'r', 's']]
    have e3 : containsSeq "third vowel".toList ("less than ".toList ++ (ds ++ " characters".toList))
        = false := by
      simp +decide [containsSeq, startsWithSeq, litThirdVowel, litLessThan,
        litCharacters, List.cons_append, List.nil_append,
        containsSeq_append_digits ['t', 'h', 'i', 'r', 'd', ' ', 'v', 'o', 'w', 'e', 'l']
          (by decide) (by decide) hds [' ', 'c', 'h', 'a', 'r', 'a', 'c', 't', 'e', 'r', 's']]
    have e4 : containsSeq "fourth vowel".toList ("less than ".toList ++ (ds ++ " characters".toList))
        = false := by
      simp +decide [containsSeq, startsWithSeq, litFourthVowel, litLessThan,
        litCharacters, List.cons_append, List.nil_append,
        containsSeq_append_digits ['f', 'o', 'u', 'r', 't', 'h', ' ', 'v', 'o', 'w', 'e', 'l']
          (by decide) (by decide) hds [' ', 'c', 'h', 'a', 'r', 'a', 'c', 't', 'e', 'r', 's']]
    have e5 : containsSeq "fifth vowel".toList ("less than ".toList ++ (ds ++ " characters".toList))
        = false := by
      simp +decide [containsSeq, startsWithSeq, litFifthVowel, litLessThan,
        litCharacters, List.cons_append, List.nil_append,
        containsSeq_append_digits ['f', 'i', 'f', 't', 'h', ' ', 'v', 'o', 'w', 'e', 'l']
          (by decide) (by decide) hds [' ', 'c', 'h', 'a', 'r', 'a', 'c', 't', 'e', 'r', 's']]
    intro r hr
    simp [vowelRules] at hr
    rcases hr with hr | hr | hr | hr | hr <;> rw [hr]
    · exact e1
    · exact e2
    · exact e3
    · exact e4
    · exact e5
  exact (parse_of_rule_results _ none (some N)
    (by rw [hlq]; exact hpal) (by rw [hlq]; exact hsingle)
    (by rw [hlq]; exact hone) (by rw [hlq]; exact htwo)
    (by rw [hlq]; exact hdouble) (by rw [hlq]; exact h4q)
    (by rw [hlq]; exact h5q) (by rw [hlq]; exact h6q)
    (by rw [hlq]; exact h7q) (by rw [hlq]; exact h8q)
    (fun r hr => by rw [hlq]; exact h9q r hr)).trans rfl

/-- C6: for every digit run `ds` denoting the non-negative integer `N`,
the translator maps `longer than N` and `more than N characters` to
`min_length = N + 1`, and `shorter than N` and `less than N characters` to
`max_length = N - 1` (a JS number, so `-1` for `N = 0`); in particular
`strings longer than 10 characters` parses to `min_length = 11`. -/
theorem claim6_length_patterns :
    (∀ (N : Nat) (ds : List Char), ds ≠ [] → (∀ c ∈ ds, c.isDigit = true) →
      digitsToNat 0 ds = N →
      parseNaturalLanguageQuery (String.mk ("longer than ".toList ++ ds)) =
        { min_length := some ((N : Int) + 1) } ∧
      parseNaturalLanguageQuery
          (String.mk ("more than ".toList ++ (ds ++ " characters".toList))) =
        { min_length := some ((N : Int) + 1) } ∧
      parseNaturalLanguageQuery (String.mk ("shorter than ".toList ++ ds)) =
        { max_length := some ((N : Int) - 1) } ∧
      parseNaturalLanguageQuery
          (String.mk ("less than ".toList ++ (ds ++ " characters".toList))) =
        { max_length := some ((N : Int) - 1) }) ∧
    parseNaturalLanguageQuery "strings longer than 10 characters" =
      { min_length := some 11 } := by
  refine ⟨fun N ds hne hds hN => ⟨parse_longer_than N ds hne hds hN,
    parse_more_than N ds hne hds hN, parse_shorter_than N ds hne hds hN,
    parse_less_than N ds hne hds hN⟩, ?_⟩
  rfl

/-- C6 witness: the pattern evaluated at the concrete run `10`. -/
theorem claim6_witness :
    parseNaturalLanguageQuery
        (String.mk ("longer than ".toList ++ "10".toList)) =
      { min_length := some (((10 : Nat) : Int) + 1) } :=
  (claim6_length_patterns.1 10 "10".toList (by decide) (by decide)
    (by decide)).1
